import Mathlib

/-!
# Verification of the DAT (Dev Audit Tool) core against its specification

Shallow embedding of the scan-and-evaluate pipeline of the `dat` repository:

* `src/dat/rules/engine.py` — the policy rule engine (`Policy.evaluate`, `DEFAULT_RULES`);
* `src/dat/utils.py` — the `is_binary` classifier;
* `tools/dat2lrc.py` — the `is_text_file` classifier;
* `src/dat/scanner.py` — `count_lines`, `scan_repository` and its result model;
* `src/dat/cli.py` — `validate_args` and the `--diff` comparison in `main`.

External effects (filesystem enumeration, `stat`, file reads, the optional
`magic` MIME library, `mimetypes.guess_type`, `fnmatch`) are represented as
explicit input data of the embedded functions: every branch of the Python
control flow is reproduced on that data.
-/

namespace Dat

/-! ## Python string primitives

`str.strip()` and the `in` substring test, modelled on `List Char`. -/

/-- ASCII whitespace stripped by Python's `str.strip()`:
space, tab, newline, carriage return, vertical tab, form feed. -/
def isPySpace (c : Char) : Bool :=
  c == ' ' || c == '\t' || c == '\n' || c == '\r' ||
    c == Char.ofNat 11 || c == Char.ofNat 12

/-- Model of `str.strip()` on a character list: drop whitespace from both ends. -/
def pyStripChars (l : List Char) : List Char :=
  ((l.dropWhile isPySpace).reverse.dropWhile isPySpace).reverse

/-- Whether the first list occurs at the start of the second (`==` on chars). -/
def charsAtHere : List Char → List Char → Bool
  | [], _ => true
  | _ :: _, [] => false
  | a :: p, b :: s => a == b && charsAtHere p s

/-- Python's `p in s` substring containment on character lists. -/
def containsSub (p : List Char) : List Char → Bool
  | [] => p.isEmpty
  | b :: rest => charsAtHere p (b :: rest) || containsSub p rest

/-- Python's `pattern in stripped` on strings. -/
def pyIn (pat s : String) : Bool :=
  containsSub pat.toList s.toList

/-! ## `src/dat/rules/engine.py` — the policy rule engine -/

/-- The `Rule` dataclass of `engine.py`: a single audit rule. -/
structure Rule where
  rule_id : String
  description : String
  patterns : List String
  severity : String
deriving Repr, DecidableEq

/-- The `RuleViolation` dataclass of `engine.py`: a match against a rule. -/
structure RuleViolation where
  rule_id : String
  severity : String
  message : String
  path : String
  line_number : Option Nat
deriving Repr, DecidableEq

/-- The `Policy` dataclass of `engine.py`: container for active audit rules. -/
structure Policy where
  rules : List Rule
deriving Repr, DecidableEq

/-- Innermost loop of `Policy.evaluate`: `for pattern in rule.patterns`,
appending one violation whenever `pattern in stripped`. -/
def matchPatterns (r : Rule) (path : String) (ln : Nat) (stripped : List Char) :
    List String → List RuleViolation
  | [] => []
  | p :: ps =>
    (if containsSub p.toList stripped then
      [⟨r.rule_id, r.severity, "Matched pattern '" ++ p ++ "'", path, some ln⟩]
    else []) ++ matchPatterns r path ln stripped ps

/-- Middle loop of `Policy.evaluate`: `for rule in self.rules`. -/
def matchRules (path : String) (ln : Nat) (stripped : List Char) :
    List Rule → List RuleViolation
  | [] => []
  | r :: rs => matchPatterns r path ln stripped r.patterns ++ matchRules path ln stripped rs

/-- Outer loop of `Policy.evaluate`:
`for line_number, line in enumerate(lines, start=1)`, with `stripped = line.strip()`. -/
def evalFrom (rules : List Rule) (path : String) : Nat → List String → List RuleViolation
  | _, [] => []
  | ln, line :: rest =>
    matchRules path ln (pyStripChars line.toList) rules ++ evalFrom rules path (ln + 1) rest

/-- Embedding of `Policy.evaluate` of `engine.py`: evaluate policy rules against a file stream. -/
def Policy.evaluate (policy : Policy) (path : String) (lines : List String) :
    List RuleViolation :=
  evalFrom policy.rules path 1 lines

/-- The `DEFAULT_RULES` list of `engine.py`. -/
def DEFAULT_RULES : List Rule :=
  [⟨"secrets.api_key", "Potential API key exposure",
      ["API_KEY", "SECRET_KEY", "x-api-key"], "high"⟩,
   ⟨"credentials.password", "Potential password in source",
      ["password=", "pwd=", "PASS="], "critical"⟩,
   ⟨"compliance.todo", "TODO found in tracked files",
      ["TODO"], "low"⟩]

/-- Embedding of `load_default_policy` of `engine.py`: the default rules followed by any
extra rules (an absent/empty `extra_rules` argument contributes nothing). -/
def load_default_policy (extra_rules : List Rule) : Policy :=
  ⟨DEFAULT_RULES ++ extra_rules⟩

/-- The spec's own description of rule evaluation (§4.4), stated independently
of the loop structure: for each line (1-based), for each rule, for each
pattern, one `RuleViolation` exactly when the pattern is a literal substring
of the whitespace-trimmed line. Used to compare `Policy.evaluate` against
the specification's words. -/
def specEvaluate (policy : Policy) (path : String) (lines : List String) :
    List RuleViolation :=
  ((lines.enumFrom 1).map (fun li =>
    (policy.rules.map (fun r =>
      (r.patterns.filter (fun p => containsSub p.toList (pyStripChars li.2.toList))).map
        (fun p =>
          (⟨r.rule_id, r.severity, "Matched pattern '" ++ p ++ "'", path,
            some li.1⟩ : RuleViolation)))).flatten)).flatten

/-! ## `src/dat/utils.py` — `is_binary`

External observations are data: `magicMime` is the MIME string returned by the
optional `magic` library when that call succeeds and yields a truthy value
(`none` covers the library being absent, raising, or returning a falsy value);
`readBytes` is the result of `path.read_bytes()` (`none` models an `OSError`,
which the code suppresses). -/

/-- Embedding of `is_binary` of `utils.py`: a truthy MIME result decides immediately
(`not mime.startswith("text/")`); otherwise a NUL byte among the first 1024
bytes means binary; everything else — including a failed read — is text. -/
def is_binary (magicMime : Option String) (readBytes : Option (List Nat)) : Bool :=
  match magicMime with
  | some mime => !mime.startsWith "text/"
  | none =>
    match readBytes with
    | none => false
    | some bs => if (bs.take 1024).contains 0 then true else false

/-! ## `tools/dat2lrc.py` — `is_text_file` -/

/-- The `BINARY_EXTENSIONS` set of `dat2lrc.py`. -/
def BINARY_EXTENSIONS : List String :=
  [".exe", ".dll", ".so", ".dylib", ".bin", ".app", ".dmg", ".pkg",
   ".deb", ".rpm", ".msi", ".zip", ".tar", ".gz", ".7z", ".rar",
   ".jpg", ".jpeg", ".png", ".gif", ".bmp", ".tiff", ".ico", ".svg",
   ".mp3", ".mp4", ".avi", ".mov", ".wav", ".flac", ".pdf", ".doc",
   ".docx", ".xls", ".xlsx", ".ppt", ".pptx"]

/-- The MIME-type step of `is_text_file`: `some true` when the guessed type is
decisively textual, `none` when the guess is absent or not decisive (the code
then falls through to the character-distribution analysis). -/
def mimeStep (mt : Option String) : Option Bool :=
  match mt with
  | none => none
  | some mt =>
    if mt.startsWith "text/" then some true
    else if mt == "application/xml" || mt == "application/json"
        || mt == "application/javascript" then some true
    else if mt.startsWith "application/" && containsSub "script".toList mt.toList then
      some true
    else none

/-- Character-distribution analysis of `is_text_file`: control characters are
bytes `< 32` other than tab/LF/CR, printable characters are all bytes `≥ 32`;
text iff `control_ratio < 0.05` and `printable_ratio > 0.7` (stated as the
equivalent exact rational comparisons `20·control < total`,
`10·printable > 7·total`). -/
def charDistribution (sample : List Nat) : Bool :=
  let control := (sample.filter (fun b => b < 32 && b != 9 && b != 10 && b != 13)).length
  let printable := (sample.filter (fun b => 32 ≤ b)).length
  let total := sample.length
  if total == 0 then true
  else decide (20 * control < total) && decide (10 * printable > 7 * total)

/-- Embedding of `is_text_file` of `dat2lrc.py`. `statRead` packages the `try` block's
external observations: `none` models an `OSError`/`IOError`/`PermissionError`
from `stat` or the read, `some (size, sample)` carries `st_size` and the first
`sniff = 4096` bytes. `mt` is the `mimetypes.guess_type` result (`none` for a
falsy guess). -/
def is_text_file (suffixLower : String) (statRead : Option (Nat × List Nat))
    (mt : Option String) : Bool :=
  if BINARY_EXTENSIONS.contains suffixLower then false
  else
    match statRead with
    | none => false
    | some (size, sample) =>
      if size == 0 then true
      else if sample.isEmpty then true
      else if sample.contains 0 then false
      else
        match mimeStep mt with
        | some b => b
        | none => charDistribution sample

/-! ## `src/dat/scanner.py` — `count_lines` and `scan_repository` -/

/-- The Python truthiness guard `if max_lines and line_count > max_lines` of
`count_lines`: false when `max_lines` is `None` or `0`. -/
def lineGuard (maxLines : Option Nat) (c : Nat) : Bool :=
  match maxLines with
  | none => false
  | some m => decide (m ≠ 0) && decide (c > m)

/-- The `for line_count, _line in enumerate(handle, start=1)` loop of
`count_lines`: increment the counter per line, returning early when the
guard fires. -/
def countLoop (maxLines : Option Nat) : List String → Nat → Nat
  | [], c => c
  | _ :: rest, c =>
    if lineGuard maxLines (c + 1) then c + 1 else countLoop maxLines rest (c + 1)

/-- Embedding of `count_lines` of `scanner.py`. `content` is the opened file's lines
(`none` models an `OSError`, which yields `0`); binary files count `0`. -/
def count_lines (binary : Bool) (maxLines : Option Nat) (content : Option (List String)) :
    Nat :=
  if binary then 0
  else
    match content with
    | none => 0
    | some ls => countLoop maxLines ls 0

/-- The `FileRecord` dataclass of `scanner.py`: metadata describing a scanned file. -/
structure FileRecord where
  path : String
  size : Nat
  lines : Nat
  binary : Bool
deriving Repr, DecidableEq

/-- The `ScanStatistics` dataclass of `scanner.py`. -/
@[ext]
structure ScanStatistics where
  scanned : Nat
  skipped : Nat
  binary : Nat
  errors : Nat
deriving Repr, DecidableEq

/-- The `ScanResult` dataclass of `scanner.py`: the return value of
`scan_repository`. -/
@[ext]
structure ScanResult where
  root : String
  files : List FileRecord
  skipped : List String
  errors : List String
  stats : ScanStatistics
deriving Repr, DecidableEq

/-- The fresh `ScanStatistics()` all counters start from. -/
def emptyStats : ScanStatistics := ⟨0, 0, 0, 0⟩

/-- One file yielded by `os.walk` beneath the scan root, together with the
external observations `scan_repository` makes about it: `path` is the relative
path `str(file_path.relative_to(result.root))`; `statSize` is `st_size`
(`none` models the `OSError` branch, whose message is `excMsg`); `binary` is
the `is_binary(file_path)` verdict; `content` holds the file's text lines as
read by `count_lines` (`none` models an `OSError` there). Directories pruned
by the ignore filter never contribute entries, exactly as in the walk. -/
structure WalkEntry where
  path : String
  statSize : Option Nat
  excMsg : String
  binary : Bool
  content : Option (List String)
deriving Repr, DecidableEq

/-- The scan parameters of `scan_repository`. `ignore` is the verdict of
`should_ignore(file_path, ignore_patterns)` for each walked path; `fnmatch`
is an external library call, so the compiled pattern matcher enters the
embedding as this predicate. -/
structure ScanParams where
  ignore : String → Bool
  max_lines : Nat
  max_size : Nat
  safe : Bool
  deep : Bool

/-- The per-file decision chain in the body of `scan_repository`'s loop:
ignored → skipped; stat failure → error (`f"{file_path}: {exc}"`, with the
absolute path `root ++ "/" ++ path`); `safe and binary` → skipped;
`safe and size > max_size` → skipped; count lines with
`None if deep else max_lines`; `safe and not deep and lines > max_lines` →
skipped; otherwise a `FileRecord`. -/
inductive Outcome where
  | ok (record : FileRecord)
  | skip (path : String)
  | err (msg : String)
deriving Repr, DecidableEq

/-- The loop body's classification of one file (`scanner.py`, lines 85–126). -/
def processEntry (p : ScanParams) (root : String) (e : WalkEntry) : Outcome :=
  if p.ignore e.path then .skip e.path
  else
    match e.statSize with
    | none => .err (root ++ "/" ++ e.path ++ ": " ++ e.excMsg)
    | some size =>
      if p.safe && e.binary then .skip e.path
      else if p.safe && decide (size > p.max_size) then .skip e.path
      else
        let lines := count_lines e.binary (if p.deep then none else some p.max_lines) e.content
        if p.safe && !p.deep && decide (lines > p.max_lines) then .skip e.path
        else .ok ⟨e.path, size, lines, e.binary⟩

/-- One iteration of `scan_repository`'s loop over `filenames`: the decision
chain of `processEntry` plus the bookkeeping that accompanies it 1:1 in the
source — `stats.binary` is incremented whenever the file was not ignored, its
`stat` succeeded and `is_binary` returned true (before any safe-mode skip),
and each append to `skipped`/`errors`/`files` increments the matching
counter. -/
def scanStep (p : ScanParams) (root : String) (acc : ScanResult) (e : WalkEntry) :
    ScanResult :=
  let stats1 :=
    if !p.ignore e.path && e.statSize.isSome && e.binary then
      { acc.stats with binary := acc.stats.binary + 1 }
    else acc.stats
  match processEntry p root e with
  | .skip s =>
    { acc with skipped := acc.skipped ++ [s],
               stats := { stats1 with skipped := stats1.skipped + 1 } }
  | .err m =>
    { acc with errors := acc.errors ++ [m],
               stats := { stats1 with errors := stats1.errors + 1 } }
  | .ok r =>
    { acc with files := acc.files ++ [r],
               stats := { stats1 with scanned := stats1.scanned + 1 } }

/-- Model of `result.skipped.sort()` / `result.errors.sort()`: lexicographic sort of a
string list (Python `list.sort` and `insertionSort` are both stable). -/
def sortStrings (l : List String) : List String :=
  List.insertionSort (· ≤ ·) l

instance : DecidableRel (fun a b : FileRecord => a.path ≤ b.path) :=
  fun a b => inferInstanceAs (Decidable (a.path ≤ b.path))

instance : IsTotal FileRecord (fun a b => a.path ≤ b.path) :=
  ⟨fun a b => le_total a.path b.path⟩

instance : IsTrans FileRecord (fun a b => a.path ≤ b.path) :=
  ⟨fun _ _ _ h h' => le_trans h h'⟩

/-- Model of `result.files.sort(key=lambda record: record.path)`. -/
def sortRecords (l : List FileRecord) : List FileRecord :=
  List.insertionSort (fun a b => a.path ≤ b.path) l

/-- Embedding of `scan_repository` of `scanner.py`: fold the loop body over the files the
walk encounters (in walk order) starting from a fresh result, then sort
`files` by path and `skipped`/`errors` lexicographically. -/
def scan_repository (p : ScanParams) (root : String) (entries : List WalkEntry) :
    ScanResult :=
  let r := entries.foldl (scanStep p root) ⟨root, [], [], [], emptyStats⟩
  { r with files := sortRecords r.files,
           skipped := sortStrings r.skipped,
           errors := sortStrings r.errors }

/-- Walking a missing root: `os.walk` applied to a non-existent (or unreadable) root yields no
directories at all: the initial `scandir` raises, `os.walk`'s default
`onerror=None` swallows the error, and the generator is exhausted
immediately. A scan of such a root therefore folds over no entries. -/
def missingRootWalk : List WalkEntry := []

/-! ## Characterization of the `scan_repository` fold -/

/-- The `FileRecord` an outcome contributes, if any. -/
def fileOut : Outcome → Option FileRecord
  | .ok r => some r
  | .skip _ => none
  | .err _ => none

/-- The skipped path an outcome contributes, if any. -/
def skipOut : Outcome → Option String
  | .ok _ => none
  | .skip s => some s
  | .err _ => none

/-- The error string an outcome contributes, if any. -/
def errOut : Outcome → Option String
  | .ok _ => none
  | .skip _ => none
  | .err m => some m

/-- The error string `f"{file_path}: {exc}"` recorded for a walk entry whose
`stat` failed. -/
def errStringOf (root : String) (e : WalkEntry) : String :=
  root ++ "/" ++ e.path ++ ": " ++ e.excMsg

/-- The condition under which the loop increments `stats.binary`. -/
def binaryCounted (p : ScanParams) (e : WalkEntry) : Bool :=
  !p.ignore e.path && e.statSize.isSome && e.binary


/-! ## `src/dat/cli.py` — argument validation and the `--diff` comparison -/

/-- The command-line arguments consulted by `validate_args` of `cli.py`.
`folder`, `single_file` and `diff` are `None` or strings (Python tests them
for truthiness); the four output slots are tested with `is not None`. -/
structure CliArgs where
  path : String
  folder : Option String
  single_file : Option String
  output : Option String
  json : Option String
  pdf : Option String
  md : Option String
  diff : Option String
deriving Repr, DecidableEq

/-- Python truthiness of an optional string: `None` and `""` are falsy. -/
def pyTruthy : Option String → Bool
  | none => false
  | some s => !s.isEmpty

/-- Shorthand `getD ""`: the string behind a truthy optional argument. -/
def strOf (o : Option String) : String := o.getD ""

/-- The filesystem facts `validate_args` queries (`Path.exists`,
`Path.is_dir`, `Path.is_file`), supplied as an oracle. -/
structure Fs where
  pathExists : String → Bool
  isDir : String → Bool
  isFile : String → Bool

/-- Model of `Path(target) / sub` with forward slashes. -/
def joinPath (a b : String) : String := a ++ "/" ++ b

/-- The number of output options that are `not None`
(`[args.output, args.json, args.pdf, args.md]`). -/
def countOutputs (a : CliArgs) : Nat :=
  ([a.output, a.json, a.pdf, a.md].filter Option.isSome).length

/-- Embedding of `validate_args` of `cli.py` (lines 207–249): the ordered validation chain,
returning `(is_valid, error_message)`. -/
def validate_args (fs : Fs) (a : CliArgs) : Bool × String :=
  if !fs.pathExists a.path then
    (false, "Target path does not exist: " ++ a.path)
  else if !fs.isDir a.path then
    (false, "Target path is not a directory: " ++ a.path)
  else if pyTruthy a.folder && !fs.pathExists (joinPath a.path (strOf a.folder)) then
    (false, "Selected folder does not exist: " ++ strOf a.folder)
  else if pyTruthy a.folder && !fs.isDir (joinPath a.path (strOf a.folder)) then
    (false, "Selected folder is not a directory: " ++ strOf a.folder)
  else if pyTruthy a.single_file && !fs.pathExists (joinPath a.path (strOf a.single_file)) then
    (false, "Selected file does not exist: " ++ strOf a.single_file)
  else if pyTruthy a.single_file && !fs.isFile (joinPath a.path (strOf a.single_file)) then
    (false, "Selected file is not a file: " ++ strOf a.single_file)
  else if countOutputs a > 1 then
    (false, "Specify only one output format at a time")
  else if pyTruthy a.diff && !fs.pathExists (strOf a.diff) then
    (false, "Diff baseline file not found: " ++ strOf a.diff)
  else (true, "")

/-- Modelled from the spec: the per-file slice of the report produced by
`build_scan_report` in the missing `dat.scanner.core` module. Per §6 the
report carries `files[]` with, for each file, its path and the violations
found in it. Only the fields the diff comparison consults are modelled. -/
structure FileReport where
  path : String
  violations : List RuleViolation
deriving Repr, DecidableEq

/-- Modelled from the spec: the `ScanReport` of the missing
`dat.scanner.core` module, as consumed by `cli.py`'s diff comparison. -/
structure ScanReport where
  files : List FileReport
deriving Repr, DecidableEq

/-- Modelled from the spec: `ScanReport.total_violations`, the total number of
violations across all files of the report (`cli.py` sums per-file violation
lists the same way in `display_scan_summary`). -/
def ScanReport.total_violations (r : ScanReport) : Nat :=
  (r.files.map (fun f => f.violations.length)).sum

/-- The three observable outcomes of the `--diff` comparison in `cli.py`
`main` (lines 616–635): the printed classification (regression also sets
exit code 3). -/
inductive DiffOutcome where
  | regression
  | improvement
  | unchanged
deriving Repr, DecidableEq

/-- The `--diff` comparison of `cli.py` `main`: compare
`report.total_violations` against the previous report's total and classify
the pair by those two numbers alone. -/
def diffOutcome (previous current : ScanReport) : DiffOutcome :=
  if current.total_violations > previous.total_violations then .regression
  else if current.total_violations < previous.total_violations then .improvement
  else .unchanged

/-- The paths appearing in a report's `files[]`. -/
def pathsOf (r : ScanReport) : List String := r.files.map (fun f => f.path)

/-- Per-path violation count of a report. -/
def violationCount (r : ScanReport) (p : String) : Nat :=
  ((r.files.filter (fun f => f.path == p)).map (fun f => f.violations.length)).sum

/-- The spec's `DiffResult` (§4.6): the four per-path sets the Diff Engine is
said to produce. Defined from the spec's words, to compare against the code's
`diffOutcome`. -/
structure DiffResult where
  regressions : List String
  improvements : List String
  newPaths : List String
  removedPaths : List String
deriving Repr, DecidableEq

/-- The spec's diff classification (§4.6), from its words: Regression —
present in both with strictly increased count; Improvement — strictly
decreased; New — only in `current`; Removed — only in `previous`; unchanged
counts in neither set. -/
def specDiff (previous current : ScanReport) : DiffResult :=
  { regressions := (pathsOf current).filter (fun p =>
      (pathsOf previous).contains p &&
        decide (violationCount current p > violationCount previous p))
    improvements := (pathsOf current).filter (fun p =>
      (pathsOf previous).contains p &&
        decide (violationCount current p < violationCount previous p))
    newPaths := (pathsOf current).filter (fun p => !(pathsOf previous).contains p)
    removedPaths := (pathsOf previous).filter (fun p => !(pathsOf current).contains p) }

/-- Modelled from the spec: the report fingerprint. In `cli.py` the
fingerprint is `sha256(report.to_json())` where `to_json` belongs to the
missing `dat.scanner.core` module; per §4.5 it is a hash of a canonical
serialization in which all collections are sorted. SHA-256 is a
deterministic function of its input, so the fingerprint is modelled as the
canonical serialization itself: two scans agree on the fingerprint exactly
when they agree on the serialized fields. -/
def fingerprint (r : ScanResult) : String :=
  r.root ++ "&" ++
    String.intercalate ";" (r.files.map (fun f =>
      f.path ++ "|" ++ toString f.size ++ "|" ++ toString f.lines ++ "|" ++
        (if f.binary then "1" else "0"))) ++ "&" ++
    String.intercalate ";" r.skipped ++ "&" ++
    String.intercalate ";" r.errors ++ "&" ++
    toString r.stats.scanned ++ "|" ++ toString r.stats.skipped ++ "|" ++
    toString r.stats.binary ++ "|" ++ toString r.stats.errors

/-! ## Theorems -/

theorem matchPatterns_eq (r : Rule) (path : String) (ln : Nat) (stripped : List Char)
    (ps : List String) :
    matchPatterns r path ln stripped ps =
      (ps.filter (fun p => containsSub p.toList stripped)).map
        (fun p =>
          (⟨r.rule_id, r.severity, "Matched pattern '" ++ p ++ "'", path,
            some ln⟩ : RuleViolation)) := by
  induction ps with
  | nil => rfl
  | cons p ps ih =>
    by_cases h : containsSub p.toList stripped = true
    all_goals simp only [String.toList] at h
    · simp [matchPatterns, h, List.filter_cons, ih]
    · simp only [Bool.not_eq_true] at h
      simp [matchPatterns, h, List.filter_cons, ih]

theorem matchRules_eq (path : String) (ln : Nat) (stripped : List Char) (rs : List Rule) :
    matchRules path ln stripped rs =
      (rs.map (fun r =>
        (r.patterns.filter (fun p => containsSub p.toList stripped)).map
          (fun p =>
            (⟨r.rule_id, r.severity, "Matched pattern '" ++ p ++ "'", path,
              some ln⟩ : RuleViolation)))).flatten := by
  induction rs with
  | nil => rfl
  | cons r rs ih => simp [matchRules, ih, matchPatterns_eq]

theorem evalFrom_eq (rules : List Rule) (path : String) (ln : Nat) (lines : List String) :
    evalFrom rules path ln lines =
      ((lines.enumFrom ln).map (fun li =>
        (rules.map (fun r =>
          (r.patterns.filter (fun p => containsSub p.toList (pyStripChars li.2.toList))).map
            (fun p =>
              (⟨r.rule_id, r.severity, "Matched pattern '" ++ p ++ "'", path,
                some li.1⟩ : RuleViolation)))).flatten)).flatten := by
  induction lines generalizing ln with
  | nil => rfl
  | cons line rest ih => simp [evalFrom, List.enumFrom, ih, matchRules_eq]

theorem scanStep_files (p : ScanParams) (root : String) (acc : ScanResult) (e : WalkEntry) :
    (scanStep p root acc e).files
      = acc.files ++ (fileOut (processEntry p root e)).toList := by
  cases h : processEntry p root e <;> simp [scanStep, h, fileOut]

theorem scanStep_skipped (p : ScanParams) (root : String) (acc : ScanResult) (e : WalkEntry) :
    (scanStep p root acc e).skipped
      = acc.skipped ++ (skipOut (processEntry p root e)).toList := by
  cases h : processEntry p root e <;> simp [scanStep, h, skipOut]

theorem scanStep_errors (p : ScanParams) (root : String) (acc : ScanResult) (e : WalkEntry) :
    (scanStep p root acc e).errors
      = acc.errors ++ (errOut (processEntry p root e)).toList := by
  cases h : processEntry p root e <;> simp [scanStep, h, errOut]

theorem scanStep_root (p : ScanParams) (root : String) (acc : ScanResult) (e : WalkEntry) :
    (scanStep p root acc e).root = acc.root := by
  cases h : processEntry p root e <;> simp [scanStep, h]

theorem scanStep_scanned (p : ScanParams) (root : String) (acc : ScanResult) (e : WalkEntry) :
    (scanStep p root acc e).stats.scanned
      = acc.stats.scanned + (fileOut (processEntry p root e)).toList.length := by
  cases h : processEntry p root e <;> simp [scanStep, h, fileOut] <;> split <;> simp

theorem scanStep_skipCount (p : ScanParams) (root : String) (acc : ScanResult) (e : WalkEntry) :
    (scanStep p root acc e).stats.skipped
      = acc.stats.skipped + (skipOut (processEntry p root e)).toList.length := by
  cases h : processEntry p root e <;> simp [scanStep, h, skipOut] <;> split <;> simp

theorem scanStep_errCount (p : ScanParams) (root : String) (acc : ScanResult) (e : WalkEntry) :
    (scanStep p root acc e).stats.errors
      = acc.stats.errors + (errOut (processEntry p root e)).toList.length := by
  cases h : processEntry p root e <;> simp [scanStep, h, errOut] <;> split <;> simp

theorem scanStep_binCount (p : ScanParams) (root : String) (acc : ScanResult) (e : WalkEntry) :
    (scanStep p root acc e).stats.binary
      = acc.stats.binary + (if binaryCounted p e then 1 else 0) := by
  cases h : processEntry p root e <;>
    simp only [scanStep, h, binaryCounted] <;> split <;> simp_all

theorem foldl_files (p : ScanParams) (root : String) :
    ∀ (es : List WalkEntry) (acc : ScanResult),
      (es.foldl (scanStep p root) acc).files
        = acc.files ++ (es.map (processEntry p root)).filterMap fileOut
  | [], acc => by simp
  | e :: rest, acc => by
    rw [List.foldl_cons, foldl_files p root rest, scanStep_files]
    cases h : processEntry p root e <;> simp [fileOut, h]

theorem foldl_skipped (p : ScanParams) (root : String) :
    ∀ (es : List WalkEntry) (acc : ScanResult),
      (es.foldl (scanStep p root) acc).skipped
        = acc.skipped ++ (es.map (processEntry p root)).filterMap skipOut
  | [], acc => by simp
  | e :: rest, acc => by
    rw [List.foldl_cons, foldl_skipped p root rest, scanStep_skipped]
    cases h : processEntry p root e <;> simp [skipOut, h]

theorem foldl_errors (p : ScanParams) (root : String) :
    ∀ (es : List WalkEntry) (acc : ScanResult),
      (es.foldl (scanStep p root) acc).errors
        = acc.errors ++ (es.map (processEntry p root)).filterMap errOut
  | [], acc => by simp
  | e :: rest, acc => by
    rw [List.foldl_cons, foldl_errors p root rest, scanStep_errors]
    cases h : processEntry p root e <;> simp [errOut, h]

theorem foldl_root (p : ScanParams) (root : String) :
    ∀ (es : List WalkEntry) (acc : ScanResult),
      (es.foldl (scanStep p root) acc).root = acc.root
  | [], acc => rfl
  | e :: rest, acc => by
    rw [List.foldl_cons, foldl_root p root rest, scanStep_root]

theorem foldl_scanned (p : ScanParams) (root : String) :
    ∀ (es : List WalkEntry) (acc : ScanResult),
      (es.foldl (scanStep p root) acc).stats.scanned
        = acc.stats.scanned + ((es.map (processEntry p root)).filterMap fileOut).length
  | [], acc => by simp
  | e :: rest, acc => by
    rw [List.foldl_cons, foldl_scanned p root rest, scanStep_scanned]
    cases h : processEntry p root e <;> simp [fileOut, h] <;> omega

theorem foldl_skipCount (p : ScanParams) (root : String) :
    ∀ (es : List WalkEntry) (acc : ScanResult),
      (es.foldl (scanStep p root) acc).stats.skipped
        = acc.stats.skipped + ((es.map (processEntry p root)).filterMap skipOut).length
  | [], acc => by simp
  | e :: rest, acc => by
    rw [List.foldl_cons, foldl_skipCount p root rest, scanStep_skipCount]
    cases h : processEntry p root e <;> simp [skipOut, h] <;> omega

theorem foldl_errCount (p : ScanParams) (root : String) :
    ∀ (es : List WalkEntry) (acc : ScanResult),
      (es.foldl (scanStep p root) acc).stats.errors
        = acc.stats.errors + ((es.map (processEntry p root)).filterMap errOut).length
  | [], acc => by simp
  | e :: rest, acc => by
    rw [List.foldl_cons, foldl_errCount p root rest, scanStep_errCount]
    cases h : processEntry p root e <;> simp [errOut, h] <;> omega

theorem foldl_binCount (p : ScanParams) (root : String) :
    ∀ (es : List WalkEntry) (acc : ScanResult),
      (es.foldl (scanStep p root) acc).stats.binary
        = acc.stats.binary + (es.filter (binaryCounted p)).length
  | [], acc => by simp
  | e :: rest, acc => by
    rw [List.foldl_cons, foldl_binCount p root rest, scanStep_binCount]
    by_cases h : binaryCounted p e <;> simp [List.filter_cons, h] <;> omega

theorem scan_files_eq (p : ScanParams) (root : String) (es : List WalkEntry) :
    (scan_repository p root es).files
      = sortRecords ((es.map (processEntry p root)).filterMap fileOut) := by
  simp [scan_repository, foldl_files]

theorem scan_skipped_eq (p : ScanParams) (root : String) (es : List WalkEntry) :
    (scan_repository p root es).skipped
      = sortStrings ((es.map (processEntry p root)).filterMap skipOut) := by
  simp [scan_repository, foldl_skipped]

theorem scan_errors_eq (p : ScanParams) (root : String) (es : List WalkEntry) :
    (scan_repository p root es).errors
      = sortStrings ((es.map (processEntry p root)).filterMap errOut) := by
  simp [scan_repository, foldl_errors]

theorem scan_root_eq (p : ScanParams) (root : String) (es : List WalkEntry) :
    (scan_repository p root es).root = root := by
  simp [scan_repository, foldl_root]

theorem scan_stats_eq (p : ScanParams) (root : String) (es : List WalkEntry) :
    (scan_repository p root es).stats
      = ⟨((es.map (processEntry p root)).filterMap fileOut).length,
         ((es.map (processEntry p root)).filterMap skipOut).length,
         (es.filter (binaryCounted p)).length,
         ((es.map (processEntry p root)).filterMap errOut).length⟩ := by
  have hs := foldl_scanned p root es ⟨root, [], [], [], emptyStats⟩
  have hk := foldl_skipCount p root es ⟨root, [], [], [], emptyStats⟩
  have he := foldl_errCount p root es ⟨root, [], [], [], emptyStats⟩
  have hb := foldl_binCount p root es ⟨root, [], [], [], emptyStats⟩
  simp only [emptyStats, Nat.zero_add] at hs hk he hb
  simp only [scan_repository]
  exact ScanStatistics.ext (by simpa using hs) (by simpa using hk)
    (by simpa using hb) (by simpa using he)

/-- Every walk entry is classified by exactly one branch of the loop body:
skipped under its relative path, errored under `f"{file_path}: {exc}"`, or
emitted as a `FileRecord` built from its path, size, counted lines and
binary flag. -/
theorem processEntry_shape (p : ScanParams) (root : String) (e : WalkEntry) :
    processEntry p root e = .skip e.path ∨
    (e.statSize = none ∧ processEntry p root e = .err (errStringOf root e)) ∨
    (∃ size, e.statSize = some size ∧
      processEntry p root e =
        .ok ⟨e.path, size,
             count_lines e.binary (if p.deep then none else some p.max_lines) e.content,
             e.binary⟩) := by
  unfold processEntry errStringOf
  split
  · exact Or.inl rfl
  · split
    next hst => exact Or.inr (Or.inl ⟨hst, rfl⟩)
    next size hst =>
      split
      · exact Or.inl rfl
      · split
        · exact Or.inl rfl
        · dsimp only
          split <;> split
          · exact Or.inl rfl
          · exact Or.inr (Or.inr ⟨size, hst, rfl⟩)
          · exact Or.inl rfl
          · exact Or.inr (Or.inr ⟨size, hst, rfl⟩)

theorem processEntry_ok_path {p : ScanParams} {root : String} {e : WalkEntry}
    {r : FileRecord} (h : processEntry p root e = .ok r) : r.path = e.path := by
  rcases processEntry_shape p root e with hs | ⟨_, hs⟩ | ⟨size, _, hs⟩ <;>
    rw [h] at hs <;> cases hs <;> rfl

theorem processEntry_skip_path {p : ScanParams} {root : String} {e : WalkEntry}
    {s : String} (h : processEntry p root e = .skip s) : s = e.path := by
  rcases processEntry_shape p root e with hs | ⟨_, hs⟩ | ⟨size, _, hs⟩ <;>
    rw [h] at hs <;> cases hs <;> rfl

theorem processEntry_err_msg {p : ScanParams} {root : String} {e : WalkEntry}
    {m : String} (h : processEntry p root e = .err m) : m = errStringOf root e := by
  rcases processEntry_shape p root e with hs | ⟨_, hs⟩ | ⟨size, _, hs⟩ <;>
    rw [h] at hs <;> cases hs <;> rfl

/-- Two sorted-by-key permutations of each other with pairwise-distinct keys
are equal (antisymmetry holds on the keys, not on the records, so this needs
the `Nodup` of the key list). -/
theorem sorted_key_perm_eq :
    ∀ {l₁ l₂ : List FileRecord}, l₁.Perm l₂ →
      l₁.Sorted (fun a b => a.path ≤ b.path) →
      l₂.Sorted (fun a b => a.path ≤ b.path) →
      (l₁.map FileRecord.path).Nodup → l₁ = l₂
  | [], l₂, hp, _, _, _ => hp.nil_eq
  | a :: t, [], hp, _, _, _ => by simpa using hp.length_eq
  | a :: t, b :: t₂, hp, hs₁, hs₂, hnd => by
    have hb : b ∈ a :: t := hp.mem_iff.mpr (List.mem_cons_self b t₂)
    have ha : a ∈ b :: t₂ := hp.mem_iff.mp (List.mem_cons_self a t)
    have hab : a.path ≤ b.path := by
      rcases List.mem_cons.mp hb with h | h
      · rw [h]
      · exact List.rel_of_sorted_cons hs₁ _ h
    have hba : b.path ≤ a.path := by
      rcases List.mem_cons.mp ha with h | h
      · rw [h]
      · exact List.rel_of_sorted_cons hs₂ _ h
    have hpath : a.path = b.path := le_antisymm hab hba
    have hbeq : b = a := by
      rcases List.mem_cons.mp hb with h | h
      · exact h
      · exact absurd (hpath ▸ List.mem_map_of_mem FileRecord.path h)
          (by simpa using (List.nodup_cons.mp hnd).1)
    subst hbeq
    have ht : t.Perm t₂ := hp.cons_inv
    have := sorted_key_perm_eq ht hs₁.of_cons hs₂.of_cons
      (List.nodup_cons.mp hnd).2
    rw [this]

theorem mem_sortStrings {s : String} {l : List String} : s ∈ sortStrings l ↔ s ∈ l := by
  unfold sortStrings
  exact (List.perm_insertionSort _ _).mem_iff

theorem mem_sortRecords {r : FileRecord} {l : List FileRecord} :
    r ∈ sortRecords l ↔ r ∈ l := by
  unfold sortRecords
  exact (List.perm_insertionSort _ _).mem_iff

/-- Membership in the scanned files is exactly an `ok` outcome of some entry. -/
theorem mem_scan_files {p : ScanParams} {root : String} {es : List WalkEntry}
    {r : FileRecord} :
    r ∈ (scan_repository p root es).files ↔
      ∃ e ∈ es, processEntry p root e = .ok r := by
  rw [scan_files_eq, mem_sortRecords]
  simp only [List.mem_filterMap, List.mem_map]
  constructor
  · rintro ⟨o, ⟨e, he, rfl⟩, ho⟩
    refine ⟨e, he, ?_⟩
    cases h : processEntry p root e <;> rw [h] at ho <;> simp [fileOut] at ho
    rw [ho]
  · rintro ⟨e, he, h⟩
    exact ⟨processEntry p root e, ⟨e, he, rfl⟩, by rw [h]; rfl⟩

/-- Membership in the skipped list is exactly a `skip` outcome of some entry. -/
theorem mem_scan_skipped {p : ScanParams} {root : String} {es : List WalkEntry}
    {s : String} :
    s ∈ (scan_repository p root es).skipped ↔
      ∃ e ∈ es, processEntry p root e = .skip s := by
  rw [scan_skipped_eq, mem_sortStrings]
  simp only [List.mem_filterMap, List.mem_map]
  constructor
  · rintro ⟨o, ⟨e, he, rfl⟩, ho⟩
    refine ⟨e, he, ?_⟩
    cases h : processEntry p root e <;> rw [h] at ho <;> simp [skipOut] at ho
    rw [ho]
  · rintro ⟨e, he, h⟩
    exact ⟨processEntry p root e, ⟨e, he, rfl⟩, by rw [h]; rfl⟩

/-- Membership in the error list is exactly an `err` outcome of some entry. -/
theorem mem_scan_errors {p : ScanParams} {root : String} {es : List WalkEntry}
    {m : String} :
    m ∈ (scan_repository p root es).errors ↔
      ∃ e ∈ es, processEntry p root e = .err m := by
  rw [scan_errors_eq, mem_sortStrings]
  simp only [List.mem_filterMap, List.mem_map]
  constructor
  · rintro ⟨o, ⟨e, he, rfl⟩, ho⟩
    refine ⟨e, he, ?_⟩
    cases h : processEntry p root e <;> rw [h] at ho <;> simp [errOut] at ho
    rw [ho]
  · rintro ⟨e, he, h⟩
    exact ⟨processEntry p root e, ⟨e, he, rfl⟩, by rw [h]; rfl⟩

theorem countLoop_none : ∀ (ls : List String) (c : Nat), countLoop none ls c = c + ls.length
  | [], c => by simp [countLoop]
  | _ :: rest, c => by
    simp only [countLoop, lineGuard, if_false]
    rw [countLoop_none rest (c + 1)]
    simp [Nat.add_assoc, Nat.add_comm 1 rest.length]

theorem countLoop_some : ∀ (ls : List String) (c m : Nat), 1 ≤ m → c ≤ m →
    countLoop (some m) ls c = min (c + ls.length) (m + 1)
  | [], c, m, _, hc => by
    simp only [countLoop, List.length_nil, Nat.add_zero]
    omega
  | _ :: rest, c, m, hm, hc => by
    simp only [countLoop, lineGuard]
    by_cases hgt : c + 1 > m
    · have : (decide (m ≠ 0) && decide (c + 1 > m)) = true := by
        simp [hgt]; omega
      rw [if_pos this]
      simp only [List.length_cons]
      omega
    · have hx : (decide (m ≠ 0) && decide (c + 1 > m)) = false := by
        rw [decide_eq_false hgt, Bool.and_false]
      rw [if_neg (by rw [hx]; simp)]
      rw [countLoop_some rest (c + 1) m hm (by omega)]
      simp only [List.length_cons]
      omega

theorem length_sortStrings (l : List String) : (sortStrings l).length = l.length := by
  unfold sortStrings
  exact (List.perm_insertionSort _ _).length_eq

theorem length_sortRecords (l : List FileRecord) : (sortRecords l).length = l.length := by
  unfold sortRecords
  exact (List.perm_insertionSort _ _).length_eq

theorem sortStrings_perm_eq {l₁ l₂ : List String} (h : l₁.Perm l₂) :
    sortStrings l₁ = sortStrings l₂ := by
  unfold sortStrings
  have hs₁ : List.Sorted (fun a b : String => a ≤ b) (List.insertionSort (· ≤ ·) l₁) :=
    List.sorted_insertionSort _ _
  have hs₂ : List.Sorted (fun a b : String => a ≤ b) (List.insertionSort (· ≤ ·) l₂) :=
    List.sorted_insertionSort _ _
  exact List.eq_of_perm_of_sorted
    ((List.perm_insertionSort _ _).trans (h.trans (List.perm_insertionSort _ _).symm))
    hs₁ hs₂

/-- The error strings of a scan are exactly the `errStringOf` strings of the
entries whose outcome is an error. -/
theorem errs_filterMap (p : ScanParams) (root : String) :
    ∀ es : List WalkEntry,
      (es.map (processEntry p root)).filterMap errOut
        = (es.filter (fun e => (errOut (processEntry p root e)).isSome)).map
            (errStringOf root)
  | [] => rfl
  | e :: rest => by
    rw [List.map_cons, List.filterMap_cons, List.filter_cons]
    cases h : processEntry p root e with
    | ok r => simp [errOut, h, errs_filterMap p root rest]
    | skip s => simp [errOut, h, errs_filterMap p root rest]
    | err m =>
      have hm := processEntry_err_msg h
      subst hm
      simp [errOut, h, errs_filterMap p root rest]

/-- The paths of the emitted records form a sublist of the walked paths. -/
theorem files_paths_sublist (p : ScanParams) (root : String) :
    ∀ es : List WalkEntry,
      (((es.map (processEntry p root)).filterMap fileOut).map FileRecord.path).Sublist
        (es.map WalkEntry.path)
  | [] => by simp
  | e :: rest => by
    rw [List.map_cons, List.filterMap_cons, List.map_cons]
    cases h : processEntry p root e with
    | ok r =>
      have hr := processEntry_ok_path h
      simpa [fileOut, hr] using (files_paths_sublist p root rest).cons₂ e.path
    | skip s =>
      simpa [fileOut] using (files_paths_sublist p root rest).cons e.path
    | err m =>
      simpa [fileOut] using (files_paths_sublist p root rest).cons e.path

/-- With `safe=False` the loop body reduces to: ignored → skipped, stat
failure → error, everything else → emitted. -/
theorem processEntry_of_not_safe {p : ScanParams} (hsafe : p.safe = false)
    (root : String) (e : WalkEntry) :
    processEntry p root e =
      if p.ignore e.path then .skip e.path
      else
        match e.statSize with
        | none => .err (errStringOf root e)
        | some size =>
          .ok ⟨e.path, size,
               count_lines e.binary (if p.deep then none else some p.max_lines) e.content,
               e.binary⟩ := by
  unfold processEntry errStringOf
  cases hst : e.statSize <;> simp [hsafe, hst]

/-- With `safe=False` the skipped outcomes are exactly the ignored entries. -/
theorem skips_of_not_safe {p : ScanParams} (hsafe : p.safe = false) (root : String) :
    ∀ es : List WalkEntry,
      (es.map (processEntry p root)).filterMap skipOut
        = (es.filter (fun e => p.ignore e.path)).map WalkEntry.path
  | [] => rfl
  | e :: rest => by
    rw [List.map_cons, List.filterMap_cons, List.filter_cons]
    rw [processEntry_of_not_safe hsafe root e]
    by_cases hig : p.ignore e.path
    · simp [hig, skipOut, skips_of_not_safe hsafe root rest]
    · cases hst : e.statSize <;>
        simp [hig, hst, skipOut, skips_of_not_safe hsafe root rest]

/-! ## Claims -/

/-- C2: for every policy and sequence of lines, `Policy.evaluate` emits
exactly one `RuleViolation` for each (line, rule, pattern) triple whose
pattern is a literal substring of the whitespace-trimmed line, carrying that
rule's id, severity and the 1-based line number, with no deduplication
(`Policy.evaluate` coincides with the spec's triple-wise description
`specEvaluate`); under the default policy, the line `"API_KEY=123"` produces
exactly one violation with rule id `secrets.api_key` and severity `"high"`,
and a line matching no pattern produces zero violations. -/
theorem C2_policy_evaluate :
    (∀ (policy : Policy) (path : String) (lines : List String),
        Policy.evaluate policy path lines = specEvaluate policy path lines) ∧
    Policy.evaluate (load_default_policy []) "app.py" ["API_KEY=123"] =
      [⟨"secrets.api_key", "high", "Matched pattern 'API_KEY'", "app.py", some 1⟩] ∧
    Policy.evaluate (load_default_policy []) "app.py" ["nothing to see here"] = [] := by
  refine ⟨fun policy path lines => ?_, by decide, by decide⟩
  rw [Policy.evaluate, evalFrom_eq, specEvaluate]

/-- C6 counterexample: the claim says a zero-byte file is classified text
before anything else, but `is_text_file` checks the known-binary extension
list first — a zero-byte `.jpg` file is classified binary. -/
theorem C6_counterexample : is_text_file ".jpg" (some (0, [])) none = false := by
  decide

/-- C6 amended: for a suffix outside `BINARY_EXTENSIONS`, `is_text_file`
classifies a zero-byte file as text and a non-empty file whose 4096-byte
sample contains a NUL byte as binary, both before (independently of) the MIME
guess and the character-distribution heuristic; a known-binary suffix is
decided first, classifying binary even for zero-byte files. `utils.is_binary`
instead consults the optional MIME library before its NUL check: a `text/*`
MIME verdict classifies text even when the bytes contain NUL. -/
theorem C6_amended (suffix : String) (mt : Option String) (sample : List Nat)
    (hsuffix : suffix ∉ BINARY_EXTENSIONS) :
    is_text_file suffix (some (0, sample)) mt = true ∧
    (0 ∈ sample → ∀ size : Nat, size ≠ 0 →
      is_text_file suffix (some (size, sample)) mt = false) ∧
    (∀ mime : String, mime.startsWith "text/" = true →
      ∀ bs : Option (List Nat), is_binary (some mime) bs = false) := by
  have hcon : BINARY_EXTENSIONS.contains suffix = false := by
    simpa using hsuffix
  refine ⟨?_, ?_, ?_⟩
  · simp [is_text_file, hcon, hsuffix]
  · intro hnul size hsize
    have hne : sample.isEmpty = false := by
      cases sample with
      | nil => cases hnul
      | cons b bs => rfl
    have hmem : sample.contains 0 = true := by
      simpa using hnul
    simp [is_text_file, hcon, hsuffix, hsize, hne, hmem, hnul]
  · intro mime hmime bs
    simp [is_binary, hmime]

/-- C6 witness: `C6_amended` applied to the suffix `.py` (not a binary
extension), a MIME guess, and a sample with a NUL byte. -/
theorem C6_witness :
    ".py" ∉ BINARY_EXTENSIONS ∧
    is_text_file ".py" (some (0, [0, 65])) (some "text/x-python") = true ∧
    is_text_file ".py" (some (12, [0, 65])) (some "text/x-python") = false := by
  have h := C6_amended ".py" (some "text/x-python") [0, 65] (by decide)
  exact ⟨by decide, h.1, h.2.1 (by decide) 12 (by decide)⟩

/-- C7 counterexample: the claim says every I/O error during classification
yields binary, but when the byte-read of `utils.is_binary` fails (and no MIME
verdict was available) the error is suppressed and the function returns
`False` — the file is classified text, not binary. -/
theorem C7_counterexample : is_binary none none = false := rfl

/-- C7 amended: on an I/O error the two classifiers disagree —
`dat2lrc.is_text_file` returns binary (its `except` clause returns `False`
for every suffix and MIME guess), while `utils.is_binary` suppresses the
failed read and returns text. -/
theorem C7_amended :
    (∀ (suffix : String) (mt : Option String), is_text_file suffix none mt = false) ∧
    is_binary none none = false := by
  refine ⟨fun suffix mt => ?_, rfl⟩
  unfold is_text_file
  split <;> rfl

/-- C8 counterexample: with `max_lines = 0` (claim range: every
`max_lines ≥ 0`) the Python guard `if max_lines and ...` is falsy, so
counting is exhaustive: a two-line file returns 2, exceeding
`max_lines + 1 = 1`. -/
theorem C8_counterexample :
    count_lines false (some 0) (some ["line one", "line two"]) = 2 ∧ ¬(2 ≤ 0 + 1) := by
  exact ⟨rfl, by decide⟩

/-- C8 amended: for a text file, `count_lines` with `max_lines = None`
(`deep=true`) returns the exact total line count; with `max_lines = m ≥ 1`
(`deep=false`) it returns `min total (m + 1)` — it stops at the boundary
value `m + 1` and never exceeds `max_lines + 1`. For `max_lines = 0` the
truthiness guard is disabled and counting is exhaustive. -/
theorem C8_amended :
    (∀ ls : List String, count_lines false none (some ls) = ls.length) ∧
    (∀ (m : Nat) (ls : List String), 1 ≤ m →
      count_lines false (some m) (some ls) = min ls.length (m + 1)) ∧
    (∀ ls : List String, count_lines false (some 0) (some ls) = ls.length) := by
  refine ⟨fun ls => ?_, fun m ls hm => ?_, fun ls => ?_⟩
  · simpa using countLoop_none ls 0
  · simpa using countLoop_some ls 0 m hm (Nat.zero_le m)
  · have hz : ∀ (l : List String) (c : Nat), countLoop (some 0) l c = c + l.length := by
      intro l
      induction l with
      | nil => intro c; simp [countLoop]
      | cons a t ih =>
        intro c
        simp only [countLoop, lineGuard]
        rw [if_neg (by simp)]
        rw [ih (c + 1)]
        simp only [List.length_cons]
        omega
    simpa using hz ls 0

/-- C8 witness: `C8_amended` applied at `max_lines = 1` on a three-line file:
the count stops at the boundary value `2 = max_lines + 1`. -/
theorem C8_witness :
    1 ≤ 1 ∧ count_lines false (some 1) (some ["a", "b", "c"]) = 2 := by
  refine ⟨le_refl 1, ?_⟩
  have h := C8_amended.2.1 1 ["a", "b", "c"] (le_refl 1)
  simpa using h

/-- C4 counterexample: a previous report whose only file is `a.py` (one
violation) versus a current report whose only file is `b.py` (one violation).
The spec's partition has `b.py` in New and `a.py` in Removed, but the code's
diff comparison — which consults only the two total violation counts —
reports the pair as unchanged and surfaces no per-path sets at all. -/
theorem C4_counterexample :
    diffOutcome
        ⟨[⟨"a.py", [⟨"compliance.todo", "low", "Matched pattern 'TODO'", "a.py", some 1⟩]⟩]⟩
        ⟨[⟨"b.py", [⟨"compliance.todo", "low", "Matched pattern 'TODO'", "b.py", some 1⟩]⟩]⟩
      = DiffOutcome.unchanged ∧
    specDiff
        ⟨[⟨"a.py", [⟨"compliance.todo", "low", "Matched pattern 'TODO'", "a.py", some 1⟩]⟩]⟩
        ⟨[⟨"b.py", [⟨"compliance.todo", "low", "Matched pattern 'TODO'", "b.py", some 1⟩]⟩]⟩
      = ⟨[], [], ["b.py"], ["a.py"]⟩ := by
  constructor
  · rfl
  · decide

/-- C4 amended: the CLI diff performs no per-path classification; it compares
only the two reports' total violation counts, reporting regression exactly
when the total strictly increased, improvement exactly when it strictly
decreased, and no change exactly when the totals are equal. -/
theorem C4_amended (previous current : ScanReport) :
    (diffOutcome previous current = DiffOutcome.regression ↔
        previous.total_violations < current.total_violations) ∧
    (diffOutcome previous current = DiffOutcome.improvement ↔
        current.total_violations < previous.total_violations) ∧
    (diffOutcome previous current = DiffOutcome.unchanged ↔
        current.total_violations = previous.total_violations) := by
  unfold diffOutcome
  split_ifs with h1 h2 <;>
    refine ⟨⟨fun hx => ?_, fun hx => ?_⟩, ⟨fun hx => ?_, fun hx => ?_⟩,
            ⟨fun hx => ?_, fun hx => ?_⟩⟩ <;>
    first
      | rfl
      | omega
      | (exact absurd hx (by simp))

/-- C9 counterexample: the claim says a scan of a non-existent root never
returns a partial or empty `ScanResult`, but `scan_repository` folds over the
(empty) walk of such a root and returns precisely an empty `ScanResult` —
no error is signalled by the scanner itself. The parameters are the source
defaults (`max_lines=1000`, `max_size=10*1024*1024`, `safe=True`,
`deep=False`). -/
theorem C9_counterexample :
    scan_repository ⟨fun _ => false, 1000, 10485760, true, false⟩ "/missing"
        missingRootWalk
      = ⟨"/missing", [], [], [], ⟨0, 0, 0, 0⟩⟩ := rfl

/-- C9 amended: the fatal report happens one layer up — `validate_args` in
the CLI rejects a non-existent target path with an error message before any
scan runs — while `scan_repository` itself, handed the empty walk of a
missing root, returns an empty `ScanResult` rather than signalling. -/
theorem C9_amended (fs : Fs) (a : CliArgs) (h : fs.pathExists a.path = false) :
    validate_args fs a = (false, "Target path does not exist: " ++ a.path) ∧
    ∀ (p : ScanParams) (root : String),
      scan_repository p root missingRootWalk = ⟨root, [], [], [], emptyStats⟩ := by
  refine ⟨?_, fun p root => rfl⟩
  unfold validate_args
  rw [if_pos (by rw [h]; rfl)]

/-- C9 witness: `C9_amended` applied to a filesystem oracle on which the
target path does not exist. -/
theorem C9_witness :
    (⟨fun _ => false, fun _ => false, fun _ => false⟩ : Fs).pathExists "proj" = false ∧
    validate_args ⟨fun _ => false, fun _ => false, fun _ => false⟩
        ⟨"proj", none, none, none, none, none, none, none⟩
      = (false, "Target path does not exist: proj") := by
  refine ⟨rfl, ?_⟩
  have h := (C9_amended ⟨fun _ => false, fun _ => false, fun _ => false⟩
    ⟨"proj", none, none, none, none, none, none, none⟩ rfl).1
  simpa using h

/-- C10: after every scan, the statistics counters equal the sizes of the
corresponding output collections: `stats.scanned = |files|`,
`stats.skipped = |skipped|`, `stats.errors = |errors|`. -/
theorem C10_stats_match (p : ScanParams) (root : String) (es : List WalkEntry) :
    (scan_repository p root es).stats.scanned = (scan_repository p root es).files.length ∧
    (scan_repository p root es).stats.skipped =
      (scan_repository p root es).skipped.length ∧
    (scan_repository p root es).stats.errors =
      (scan_repository p root es).errors.length := by
  rw [scan_stats_eq, scan_files_eq, scan_skipped_eq, scan_errors_eq]
  rw [length_sortRecords, length_sortStrings, length_sortStrings]
  exact ⟨rfl, rfl, rfl⟩

/-- C1: on a walk whose paths are distinct (as `os.walk` yields), every
encountered file lands in exactly one of the three output collections. The
first conjunct identifies the error collection: it is a permutation of the
`f"{path}: {exc}"` strings of exactly the entries whose stat failed. The
second conjunct is the partition: each entry's path is in the emitted files
and nowhere else, or in the skipped list and nowhere else, or the entry
errored and its path is in neither of the other two. -/
theorem C1_partition (p : ScanParams) (root : String) (es : List WalkEntry)
    (hnd : (es.map WalkEntry.path).Nodup) :
    (scan_repository p root es).errors.Perm
      ((es.filter (fun e => (errOut (processEntry p root e)).isSome)).map
        (errStringOf root)) ∧
    ∀ e ∈ es,
      (e.path ∈ (scan_repository p root es).files.map FileRecord.path ∧
        e.path ∉ (scan_repository p root es).skipped ∧
        (errOut (processEntry p root e)).isSome = false) ∨
      (e.path ∉ (scan_repository p root es).files.map FileRecord.path ∧
        e.path ∈ (scan_repository p root es).skipped ∧
        (errOut (processEntry p root e)).isSome = false) ∨
      (e.path ∉ (scan_repository p root es).files.map FileRecord.path ∧
        e.path ∉ (scan_repository p root es).skipped ∧
        (errOut (processEntry p root e)).isSome = true) := by
  have inj := List.inj_on_of_nodup_map hnd
  have notMemFiles : ∀ e ∈ es, (∀ r, processEntry p root e ≠ .ok r) →
      e.path ∉ (scan_repository p root es).files.map FileRecord.path := by
    intro e he hno hmem
    obtain ⟨r, hr, hrp⟩ := List.mem_map.mp hmem
    obtain ⟨e', he', hok⟩ := mem_scan_files.mp hr
    have : e' = e := inj he' he (by rw [← processEntry_ok_path hok]; exact hrp)
    exact hno r (this ▸ hok)
  have notMemSkipped : ∀ e ∈ es, (processEntry p root e ≠ .skip e.path) →
      e.path ∉ (scan_repository p root es).skipped := by
    intro e he hno hmem
    obtain ⟨e', he', hsk⟩ := mem_scan_skipped.mp hmem
    have : e' = e := inj he' he (processEntry_skip_path hsk).symm
    exact hno (this ▸ hsk)
  constructor
  · rw [scan_errors_eq]
    exact ((List.perm_insertionSort _ _).trans (by rw [errs_filterMap]))
  · intro e he
    rcases processEntry_shape p root e with hs | ⟨hst, hs⟩ | ⟨size, hst, hs⟩
    · refine Or.inr (Or.inl ⟨?_, ?_, ?_⟩)
      · exact notMemFiles e he (fun r hr => by rw [hs] at hr; cases hr)
      · exact mem_scan_skipped.mpr ⟨e, he, hs⟩
      · rw [hs]; rfl
    · refine Or.inr (Or.inr ⟨?_, ?_, ?_⟩)
      · exact notMemFiles e he (fun r hr => by rw [hs] at hr; cases hr)
      · exact notMemSkipped e he (fun hsk => by rw [hs] at hsk; cases hsk)
      · rw [hs]; rfl
    · refine Or.inl ⟨?_, ?_, ?_⟩
      · exact List.mem_map.mpr ⟨_, mem_scan_files.mpr ⟨e, he, hs⟩, rfl⟩
      · exact notMemSkipped e he (fun hsk => by rw [hs] at hsk; cases hsk)
      · rw [hs]; rfl

/-- C1 witness: `C1_partition` applied to a two-file walk — `a.txt` is
emitted (it is in the files' paths, not in the skipped list) and `b.bin`,
whose stat failed, goes to the error collection. -/
theorem C1_witness :
    (([⟨"a.txt", some 1, "", false, some ["x"]⟩,
       ⟨"b.bin", none, "denied", false, none⟩] : List WalkEntry).map
        WalkEntry.path).Nodup ∧
    "a.txt" ∈ (scan_repository ⟨fun _ => false, 1000, 10485760, true, false⟩ "/r"
        [⟨"a.txt", some 1, "", false, some ["x"]⟩,
         ⟨"b.bin", none, "denied", false, none⟩]).files.map FileRecord.path ∧
    "a.txt" ∉ (scan_repository ⟨fun _ => false, 1000, 10485760, true, false⟩ "/r"
        [⟨"a.txt", some 1, "", false, some ["x"]⟩,
         ⟨"b.bin", none, "denied", false, none⟩]).skipped := by
  refine ⟨by decide, ?_⟩
  have h := (C1_partition ⟨fun _ => false, 1000, 10485760, true, false⟩ "/r"
    [⟨"a.txt", some 1, "", false, some ["x"]⟩,
     ⟨"b.bin", none, "denied", false, none⟩] (by decide)).2
    ⟨"a.txt", some 1, "", false, some ["x"]⟩ (by simp)
  rcases h with ⟨hA, hB, _⟩ | ⟨hA, _, _⟩ | ⟨_, _, hC⟩
  · exact ⟨hA, hB⟩
  · exact absurd (by decide) hA
  · exact absurd hC (by decide)

/-- C3 counterexample: a text file of size 2 with `max_size = 1` under
`safe=true, deep=true` is still skipped — `deep=true` does not override the
size threshold (only the line-count threshold), contrary to the claim's
"regardless of the safe flag". -/
theorem C3_counterexample :
    (scan_repository ⟨fun _ => false, 10, 1, true, true⟩ "/r"
        [⟨"big.txt", some 2, "", false, some ["x"]⟩]).files = [] ∧
    (scan_repository ⟨fun _ => false, 10, 1, true, true⟩ "/r"
        [⟨"big.txt", some 2, "", false, some ["x"]⟩]).skipped = ["big.txt"] := by
  exact ⟨rfl, rfl⟩

/-- C3 amended: with `deep=true` the line-count skip is disabled, but size
and binary skips are governed solely by `safe`; in the combination the CLI
actually uses for deep scans (`deep=true, safe=false`, as set by
`determine_scan_mode`), nothing is skipped except ignored files, and every
non-ignored file whose stat succeeds — however large, and binary files
included, flagged `binary` — is emitted as a `FileRecord` with its full line
count. -/
theorem C3_amended (p : ScanParams) (root : String) (es : List WalkEntry)
    (hdeep : p.deep = true) (hsafe : p.safe = false) :
    (scan_repository p root es).skipped =
      sortStrings ((es.filter (fun e => p.ignore e.path)).map WalkEntry.path) ∧
    ∀ e ∈ es, ∀ (size : Nat) (ls : List String),
      p.ignore e.path = false → e.statSize = some size → e.content = some ls →
      (⟨e.path, size, if e.binary then 0 else ls.length, e.binary⟩ : FileRecord) ∈
        (scan_repository p root es).files := by
  constructor
  · rw [scan_skipped_eq, skips_of_not_safe hsafe]
  · intro e he size ls hig hst hcon
    refine mem_scan_files.mpr ⟨e, he, ?_⟩
    rw [processEntry_of_not_safe hsafe]
    rw [if_neg (by rw [hig]; simp), hst, hdeep]
    have hcount : count_lines e.binary none e.content =
        if e.binary then 0 else ls.length := by
      cases hb : e.binary with
      | true => simp [count_lines]
      | false => simp [count_lines, hcon, countLoop_none]
    rw [if_pos rfl, hcount]

/-- C3 witness: `C3_amended` in the CLI's deep mode on a walk with one large
text file — it is emitted with its full line count and nothing is skipped. -/
theorem C3_witness :
    (⟨fun _ => false, 10, 1, false, true⟩ : ScanParams).deep = true ∧
    (⟨fun _ => false, 10, 1, false, true⟩ : ScanParams).safe = false ∧
    (⟨"big.txt", 2, 2, false⟩ : FileRecord) ∈
      (scan_repository ⟨fun _ => false, 10, 1, false, true⟩ "/r"
        [⟨"big.txt", some 2, "", false, some ["a", "b"]⟩]).files := by
  refine ⟨rfl, rfl, ?_⟩
  have h := (C3_amended ⟨fun _ => false, 10, 1, false, true⟩ "/r"
    [⟨"big.txt", some 2, "", false, some ["a", "b"]⟩] rfl rfl).2
    ⟨"big.txt", some 2, "", false, some ["a", "b"]⟩ (by simp) 2 ["a", "b"] rfl rfl rfl
  simpa using h

/-- C5: the scan result — and hence the report fingerprint, a deterministic
hash of its canonical serialization — is invariant under the order in which
the filesystem enumerates the files: two walks of the same unchanged tree
that are permutations of each other (with the distinct paths a real walk
yields) produce equal `ScanResult`s, so their fingerprints are byte-identical.
Scanning twice with identical options is the special case of the identity
permutation. -/
theorem C5_fingerprint (p : ScanParams) (root : String) (es₁ es₂ : List WalkEntry)
    (hperm : es₁.Perm es₂) (hnd : (es₁.map WalkEntry.path).Nodup) :
    fingerprint (scan_repository p root es₁) = fingerprint (scan_repository p root es₂) := by
  have hop : (es₁.map (processEntry p root)).Perm (es₂.map (processEntry p root)) :=
    hperm.map _
  have hfilesPerm : ((es₁.map (processEntry p root)).filterMap fileOut).Perm
      ((es₂.map (processEntry p root)).filterMap fileOut) := hop.filterMap _
  have hnd₁ :
      ((((es₁.map (processEntry p root)).filterMap fileOut)).map FileRecord.path).Nodup :=
    hnd.sublist (files_paths_sublist p root es₁)
  have hfiles : (scan_repository p root es₁).files = (scan_repository p root es₂).files := by
    rw [scan_files_eq, scan_files_eq]
    unfold sortRecords
    refine sorted_key_perm_eq ?_ ?_ ?_ ?_
    · exact (List.perm_insertionSort _ _).trans
        (hfilesPerm.trans (List.perm_insertionSort _ _).symm)
    · exact List.sorted_insertionSort _ _
    · exact List.sorted_insertionSort _ _
    · exact (((List.perm_insertionSort _ _).map FileRecord.path).nodup_iff).mpr hnd₁
  have hskip : (scan_repository p root es₁).skipped =
      (scan_repository p root es₂).skipped := by
    rw [scan_skipped_eq, scan_skipped_eq]
    exact sortStrings_perm_eq (hop.filterMap _)
  have herr : (scan_repository p root es₁).errors =
      (scan_repository p root es₂).errors := by
    rw [scan_errors_eq, scan_errors_eq]
    exact sortStrings_perm_eq (hop.filterMap _)
  have hstats : (scan_repository p root es₁).stats =
      (scan_repository p root es₂).stats := by
    rw [scan_stats_eq, scan_stats_eq, hfilesPerm.length_eq,
      (hop.filterMap skipOut).length_eq, (hop.filterMap errOut).length_eq,
      (hperm.filter (binaryCounted p)).length_eq]
  have hres : scan_repository p root es₁ = scan_repository p root es₂ :=
    ScanResult.ext (by rw [scan_root_eq, scan_root_eq]) hfiles hskip herr hstats
  rw [hres]

/-- C5 witness: `C5_fingerprint` applied to the two enumeration orders of a
two-file tree. -/
theorem C5_witness :
    ([⟨"a.txt", some 1, "", false, some ["x"]⟩,
      ⟨"b.txt", some 1, "", false, some ["y"]⟩] : List WalkEntry).Perm
      [⟨"b.txt", some 1, "", false, some ["y"]⟩,
       ⟨"a.txt", some 1, "", false, some ["x"]⟩] ∧
    fingerprint (scan_repository ⟨fun _ => false, 1000, 10485760, true, false⟩ "/r"
        [⟨"a.txt", some 1, "", false, some ["x"]⟩,
         ⟨"b.txt", some 1, "", false, some ["y"]⟩]) =
      fingerprint (scan_repository ⟨fun _ => false, 1000, 10485760, true, false⟩ "/r"
        [⟨"b.txt", some 1, "", false, some ["y"]⟩,
         ⟨"a.txt", some 1, "", false, some ["x"]⟩]) := by
  refine ⟨by decide, ?_⟩
  exact C5_fingerprint ⟨fun _ => false, 1000, 10485760, true, false⟩ "/r" _ _
    (by decide) (by decide)

end Dat
